import Mathlib

/-!
Verification of the cometguard risk-engine core against its design notes.

The Rust source (risk-engine crate) is embedded shallowly:

* decimal amounts (Rust f64) are modelled as exact rationals;
* Rust U256 and u128 raw integers are modelled as naturals, with the
  saturating/aborting behaviour of the numeric casts made explicit
  (Option for conversions that abort, clamping for saturating casts);
* fallible acquisition code is modelled as Option-valued functions of the
  raw on-chain values it reads.

Timestamps are plain naturals (seconds); finding descriptions and the JSON
metadata objects are presentation-only strings in the source and are not
modelled.
-/

namespace CometGuard

/-- Risk severity level (src/risk.rs, RiskSeverity). -/
inductive RiskSeverity where
  | Low
  | Medium
  | High
  | Critical
deriving DecidableEq

/-- Risk category (src/risk.rs, RiskCategory). -/
inductive RiskCategory where
  | HighUtilization
  | PriceVolatility
  | Concentration
  | LiquidationCascade
  | OracleReliability
  | SmartContractRisk
deriving DecidableEq

/-- Individual risk finding (src/risk.rs, RiskFinding). The human-readable
description string and the JSON metadata object carry no program logic and
are omitted. -/
structure RiskFinding where
  category : RiskCategory
  severity : RiskSeverity
  timestamp : ℕ
deriving DecidableEq

/-- Asset type (src/models.rs, AssetType). -/
inductive AssetType where
  | Base
  | Collateral
deriving DecidableEq

/-- Asset details (src/models.rs, Asset). Addresses are opaque keys,
modelled as naturals. -/
structure Asset where
  address : ℕ
  symbol : String
  decimals : ℕ
  price : ℚ
  asset_type : AssetType
  collateral_factor : ℚ
  liquidation_factor : ℚ
  liquidation_penalty : ℚ
  supply_cap : ℕ
  borrow_cap : ℕ
deriving DecidableEq

/-- Market information (src/models.rs, Market). The HashMap of collateral
assets is modelled as an association list keyed by address. -/
structure Market where
  name : String
  comet_address : ℕ
  base_asset : Asset
  collateral_assets : List (ℕ × Asset)
  total_supply : ℚ
  total_borrow : ℚ
  utilization_rate : ℚ
  supply_apr : ℚ
  borrow_apr : ℚ
  base_tracking_supply_speed : ℕ
  base_tracking_borrow_speed : ℕ
  base_min_interest_rate : ℕ
  base_max_interest_rate : ℕ
deriving DecidableEq

/-- User account position (src/models.rs, UserPosition). -/
structure UserPosition where
  address : ℕ
  base_balance : ℚ
  collateral_balances : List (ℕ × ℚ)
  total_collateral_value : ℚ
  total_borrow_value : ℚ
  health_factor : ℚ
deriving DecidableEq

/-! ### Fixed-point conversion (src/utils.rs and src/compound.rs) -/

/-- Rounding used by Rust f64::round: nearest integer, ties away from zero. -/
def roundHalfAway (q : ℚ) : ℤ :=
  if 0 ≤ q then ⌊q + 1 / 2⌋ else -⌊-q + 1 / 2⌋

/-- The factor 10u64.pow(decimals): a u64 power, which wraps modulo 2^64 in
release builds once the exponent exceeds 19. -/
def u64_pow10 (decimals : ℕ) : ℕ :=
  10 ^ decimals % 2 ^ 64

/-- u256_to_f64 (src/utils.rs lines 62-66, duplicated in src/compound.rs
lines 120-124): divides the raw integer by 10^decimals. The call
value.as_u128() aborts whenever the value exceeds u128::MAX, so the
embedding returns none there. (A wrapped zero factor would give an f64
infinity; that case is outside every theorem below and the rational
division-by-zero junk value is never relied on.) -/
def u256_to_f64 (value : ℕ) (decimals : ℕ) : Option ℚ :=
  if value ≤ 2 ^ 128 - 1 then
    some ((value : ℚ) / (u64_pow10 decimals : ℚ))
  else
    none

/-- f64_to_u256 (src/utils.rs lines 69-73): multiplies by 10^decimals,
rounds with f64::round (ties away from zero), and casts with
(.. as u128), which saturates: negative values become 0 and values above
u128::MAX become u128::MAX. There is no error path. -/
def f64_to_u256 (value : ℚ) (decimals : ℕ) : ℕ :=
  (max 0 (min (roundHalfAway (value * (u64_pow10 decimals : ℚ))) (2 ^ 128 - 1))).toNat

/-! ### Risk engine (src/risk.rs) -/

/-- Severity chosen by check_utilization once the threshold is exceeded
(src/risk.rs lines 120-126): Critical above threshold + 0.1, High above
threshold + 0.05, Medium otherwise. -/
def utilizationSeverity (threshold utilization : ℚ) : RiskSeverity :=
  if threshold + 1 / 10 < utilization then .Critical
  else if threshold + 1 / 20 < utilization then .High
  else .Medium

/-- check_utilization (src/risk.rs lines 114-150): pushes one
HighUtilization finding when utilization exceeds the configured threshold,
nothing otherwise. -/
def check_utilization (threshold : ℚ) (market : Market) (timestamp : ℕ) :
    List RiskFinding :=
  if threshold < market.utilization_rate then
    [{ category := .HighUtilization,
       severity := utilizationSeverity threshold market.utilization_rate,
       timestamp := timestamp }]
  else
    []

/-- Severity weights used by calculate_risk_score (src/risk.rs lines
159-164). -/
def severityWeight : RiskSeverity → ℕ
  | .Low => 5
  | .Medium => 15
  | .High => 30
  | .Critical => 50

/-- calculate_risk_score (src/risk.rs lines 153-168): sums the severity
weights with sum::<u8>() and caps at 100. The u8 sum wraps modulo 256 in
release builds (and aborts on overflow in debug builds); the wrap is made
explicit here. -/
def calculate_risk_score (findings : List RiskFinding) : ℕ :=
  if findings.isEmpty then 0
  else
    min (findings.foldl (fun acc f => (acc + severityWeight f.severity) % 256) 0) 100

/-- simulate_market_conditions (src/risk.rs lines 172-201): adds a fixed
0.1 to the utilization rate and, when the result exceeds the threshold,
returns a single HighUtilization finding whose severity is always
Medium. -/
def simulate_market_conditions (threshold : ℚ) (market : Market)
    (timestamp : ℕ) : List RiskFinding :=
  let simulated_utilization := market.utilization_rate + 1 / 10
  if threshold < simulated_utilization then
    [{ category := .HighUtilization, severity := .Medium,
       timestamp := timestamp }]
  else
    []

/-- check_user_liquidation_risk (src/risk.rs lines 204-242). -/
def check_user_liquidation_risk (buffer : ℚ) (user : UserPosition)
    (timestamp : ℕ) : Option RiskFinding :=
  if user.total_borrow_value ≤ 0 then none
  else if user.health_factor < 1 + buffer then
    some { category := .LiquidationCascade,
           severity :=
             if user.health_factor < 1 then .Critical
             else if user.health_factor < 1 + buffer / 2 then .High
             else .Medium,
           timestamp := timestamp }
  else
    none

/-- Numeric rank of a severity, following the declared order
Low < Medium < High < Critical. -/
def severityNat : RiskSeverity → ℕ
  | .Low => 1
  | .Medium => 2
  | .High => 3
  | .Critical => 4

/-- Rank of a finding list: the largest severity rank present, 0 when no
finding was produced. -/
def severityRank (findings : List RiskFinding) : ℕ :=
  (findings.map fun f => severityNat f.severity).foldr max 0

/-- Copy of a market with a replaced utilization rate, used to compare the
utilization check across utilization values of an otherwise fixed
snapshot. -/
def Market.withUtilization (m : Market) (u : ℚ) : Market :=
  { m with utilization_rate := u }

/-! ### Market acquisition (src/compound.rs) -/

/-- Raw tuple returned by the getAssetInfo contract call, together with the
per-asset symbol and raw oracle price fetched right after it
(src/compound.rs lines 212-224). -/
structure AssetInfo where
  asset : ℕ
  decimals : ℕ
  borrowCollateralFactor : ℕ
  liquidateCollateralFactor : ℕ
  liquidationFactor : ℕ
  supplyCap : ℕ
  symbol : String
  priceRaw : ℕ
deriving DecidableEq

/-- Raw on-chain values read by get_markets, one field per contract call it
performs (src/compound.rs lines 154-261). -/
structure ChainState where
  baseToken : ℕ
  baseSymbol : String
  baseDecimals : ℕ
  basePriceRaw : ℕ
  totalSupply : ℕ
  totalBorrow : ℕ
  supplyRate : ℕ
  borrowRate : ℕ
  assets : List AssetInfo
deriving DecidableEq

/-- SECONDS_PER_YEAR (src/compound.rs line 204). -/
def secondsPerYear : ℚ := 60 * 60 * 24 * 365

/-- Collateral Asset built from one getAssetInfo tuple (src/compound.rs
lines 212-241). The source binds the tuple components so that the Asset
field liquidation_factor receives liquidateCollateralFactor and
liquidation_penalty receives liquidationFactor. -/
def mkCollateralAsset (info : AssetInfo) : Option (ℕ × Asset) :=
  (u256_to_f64 info.priceRaw 8).bind fun price =>
  (u256_to_f64 info.borrowCollateralFactor 18).bind fun cf =>
  (u256_to_f64 info.liquidateCollateralFactor 18).bind fun lf =>
  (u256_to_f64 info.liquidationFactor 18).bind fun lp =>
  some (info.asset,
    { address := info.asset
      symbol := info.symbol
      decimals := info.decimals
      price := price
      asset_type := .Collateral
      collateral_factor := cf
      liquidation_factor := lf
      liquidation_penalty := lp
      supply_cap := info.supplyCap
      borrow_cap := 0 })

/-- get_markets (src/compound.rs lines 154-261): reads the raw on-chain
fields, converts them, derives utilization and the two APRs, and returns a
single-market list. The function neither consults nor populates any cache:
its result is computed from the chain state alone. -/
def get_markets (cometAddress : ℕ) (chain : ChainState) :
    Option (List Market) :=
  (u256_to_f64 chain.basePriceRaw 8).bind fun basePrice =>
  (u256_to_f64 chain.totalSupply chain.baseDecimals).bind fun totalSupply =>
  (u256_to_f64 chain.totalBorrow chain.baseDecimals).bind fun totalBorrow =>
  (u256_to_f64 chain.supplyRate 18).bind fun supplyRate =>
  (u256_to_f64 chain.borrowRate 18).bind fun borrowRate =>
  (chain.assets.mapM mkCollateralAsset).bind fun collateralAssets =>
  some [{ name := chain.baseSymbol
          comet_address := cometAddress
          base_asset :=
            { address := chain.baseToken
              symbol := chain.baseSymbol
              decimals := chain.baseDecimals
              price := basePrice
              asset_type := .Base
              collateral_factor := 0
              liquidation_factor := 0
              liquidation_penalty := 0
              supply_cap := 0
              borrow_cap := 0 }
          collateral_assets := collateralAssets
          total_supply := totalSupply
          total_borrow := totalBorrow
          utilization_rate :=
            if 0 < totalSupply then totalBorrow / totalSupply else 0
          supply_apr := supplyRate * secondsPerYear
          borrow_apr := borrowRate * secondsPerYear
          base_tracking_supply_speed := 0
          base_tracking_borrow_speed := 0
          base_min_interest_rate := 0
          base_max_interest_rate := 0 }]

/-- Lookup of an asset by address in the collateral map, mirroring
market.collateral_assets.get(address) on the association-list model. -/
def lookupAsset (addr : ℕ) : List (ℕ × Asset) → Option Asset
  | [] => none
  | (a, asset) :: rest => if addr = a then some asset else lookupAsset addr rest

/-- Collateral loop of get_user_position (src/compound.rs lines 282-291):
reads each collateral balance, keeps only strictly positive converted
balances, and accumulates total collateral value. The HashMap iteration
order of the source is unspecified; the accumulated sum is
order-independent, so the association-list order stands in for it. -/
def collectCollaterals (collateralBalanceOf : ℕ → ℕ) :
    List (ℕ × Asset) → Option (List (ℕ × ℚ) × ℚ)
  | [] => some ([], 0)
  | (addr, asset) :: rest =>
    (u256_to_f64 (collateralBalanceOf addr) asset.decimals).bind fun bal =>
    (collectCollaterals collateralBalanceOf rest).bind fun acc =>
    if 0 < bal then some ((addr, bal) :: acc.1, acc.2 + bal * asset.price)
    else some acc

/-- Health-factor numerator loop (src/compound.rs lines 303-306): folds
over the recorded collateral balances, looking each asset up in the market
map (the source unwraps the lookup; a failed lookup is an abort, hence
none). -/
def adjustedCollateralValue (collateralAssets : List (ℕ × Asset)) :
    List (ℕ × ℚ) → Option ℚ
  | [] => some 0
  | (addr, amount) :: rest =>
    (lookupAsset addr collateralAssets).bind fun asset =>
    (adjustedCollateralValue collateralAssets rest).bind fun acc =>
    some (acc + amount * asset.price * asset.liquidation_factor)

/-- get_user_position (src/compound.rs lines 264-324), as a function of the
market and the raw balances the contract calls return: balanceOf,
borrowBalanceOf and collateralBalanceOf per collateral address. -/
def get_user_position (market : Market) (baseBalance borrowBalance : ℕ)
    (collateralBalanceOf : ℕ → ℕ) (userAddress : ℕ) : Option UserPosition :=
  ((if borrowBalance = 0 then
      u256_to_f64 baseBalance market.base_asset.decimals
    else
      Option.map (fun q => -q)
        (u256_to_f64 borrowBalance market.base_asset.decimals))).bind
  fun base_balance =>
  (collectCollaterals collateralBalanceOf market.collateral_assets).bind
  fun collected =>
  let total_borrow_value :=
    if base_balance < 0 then -base_balance * market.base_asset.price else 0
  ((if 0 < total_borrow_value then
      Option.map (fun v => v / total_borrow_value)
        (adjustedCollateralValue market.collateral_assets collected.1)
    else
      some 100)).bind
  fun health_factor =>
  some { address := userAddress
         base_balance := base_balance
         collateral_balances := collected.1
         total_collateral_value := collected.2
         total_borrow_value := total_borrow_value
         health_factor := health_factor }

/-- Direct statement of the design notes' health-factor numerator: the sum
over the market's collateral entries, restricted to strictly positive
decimal balances, of balance times price times liquidation factor. -/
def healthNumerator (market : Market) (collateralBalanceOf : ℕ → ℕ) : ℚ :=
  (market.collateral_assets.map fun p =>
    if 0 < (collateralBalanceOf p.1 : ℚ) / 10 ^ p.2.decimals then
      (collateralBalanceOf p.1 : ℚ) / 10 ^ p.2.decimals *
        p.2.price * p.2.liquidation_factor
    else 0).sum

/-! ### Snapshot cache

Modelled from the spec: the design notes describe a MarketSnapshotStore (a
cache keyed by market identifier holding the last snapshot with its
insertion time and a fixed 60-second TTL, get returning the entry only
while now - insertion_time < TTL, put replacing unconditionally). No such
component exists anywhere in the source crate; the definitions below follow
the design notes' words so the cache clauses can be stated and compared
with what get_markets actually does. -/

/-- Modelled from the spec: the fixed 60-second TTL of the snapshot
cache. -/
def snapshotTTL : ℕ := 60

/-- Modelled from the spec: the cache contents, a map from market key to
the stored snapshot and its insertion time. -/
def MarketSnapshotStore : Type := ℕ → Option (Market × ℕ)

/-- Modelled from the spec: the empty cache. -/
def MarketSnapshotStore.empty : MarketSnapshotStore := fun _ => none

/-- Modelled from the spec: put replaces any existing entry
unconditionally. -/
def MarketSnapshotStore.put (st : MarketSnapshotStore) (key : ℕ)
    (snapshot : Market) (now : ℕ) : MarketSnapshotStore :=
  fun k => if k = key then some (snapshot, now) else st k

/-- Modelled from the spec: get returns the cached snapshot only while
now - insertion_time < TTL; expiry is checked lazily on read. -/
def MarketSnapshotStore.get (st : MarketSnapshotStore) (key : ℕ)
    (now : ℕ) : Option Market :=
  match st key with
  | some (snapshot, t) => if now - t < snapshotTTL then some snapshot else none
  | none => none

/-! ### Concrete fixtures -/

/-- USDC-style base asset (6 decimals, price 1), as in the crate's own test
fixtures. -/
def usdcBase : Asset :=
  { address := 1
    symbol := "USDC"
    decimals := 6
    price := 1
    asset_type := .Base
    collateral_factor := 0
    liquidation_factor := 0
    liquidation_penalty := 0
    supply_cap := 0
    borrow_cap := 0 }

/-- WETH-style collateral asset with liquidation factor 0.825, as in the
design notes' liquidation scenario. -/
def wethAsset : Asset :=
  { address := 9
    symbol := "WETH"
    decimals := 18
    price := 2000
    asset_type := .Collateral
    collateral_factor := 33 / 40
    liquidation_factor := 33 / 40
    liquidation_penalty := 1 / 20
    supply_cap := 0
    borrow_cap := 0 }

/-- Market snapshot fixture with an explicit utilization rate. -/
def marketWithUtilization (u : ℚ) (totalSupply totalBorrow : ℚ) : Market :=
  { name := "USDC"
    comet_address := 7
    base_asset := usdcBase
    collateral_assets := [(9, wethAsset)]
    total_supply := totalSupply
    total_borrow := totalBorrow
    utilization_rate := u
    supply_apr := 1 / 20
    borrow_apr := 2 / 25
    base_tracking_supply_speed := 0
    base_tracking_borrow_speed := 0
    base_min_interest_rate := 0
    base_max_interest_rate := 0 }

/-- Snapshot at utilization 0.97 against threshold 0.85 (Critical band). -/
def utilMarket97 : Market := marketWithUtilization (97 / 100) 1000000000 970000000

/-- The design notes' market scenario: total supply 1,000,000,000, total
borrow 900,000,000, utilization exactly 0.90. -/
def utilMarket90 : Market := marketWithUtilization (9 / 10) 1000000000 900000000

/-- Six Critical findings: their severity weights sum to 300, beyond
u8::MAX. -/
def critFindings : List RiskFinding :=
  List.replicate 6 { category := .LiquidationCascade, severity := .Critical, timestamp := 0 }

/-- Chain state fixture: base price 1.0 (8-decimal oracle scale), total
supply 2.0, total borrow 1.0 in a 6-decimal base asset, zero rates, no
collateral assets configured. -/
def chainA : ChainState :=
  { baseToken := 1
    baseSymbol := "USDC"
    baseDecimals := 6
    basePriceRaw := 100000000
    totalSupply := 2000000
    totalBorrow := 1000000
    supplyRate := 0
    borrowRate := 0
    assets := [] }

/-- The same chain one second later, after borrowing grew to 1.5. -/
def chainB : ChainState := { chainA with totalBorrow := 1500000 }

/-- Snapshot get_markets builds from chainA. -/
def snapA : Market :=
  { name := "USDC"
    comet_address := 7
    base_asset := usdcBase
    collateral_assets := []
    total_supply := 2
    total_borrow := 1
    utilization_rate := 1 / 2
    supply_apr := 0
    borrow_apr := 0
    base_tracking_supply_speed := 0
    base_tracking_borrow_speed := 0
    base_min_interest_rate := 0
    base_max_interest_rate := 0 }

/-- Snapshot get_markets builds from chainB. -/
def snapB : Market :=
  { snapA with total_borrow := 3 / 2, utilization_rate := 3 / 4 }

/-- Market fixture for the user-position scenario: USDC base and one WETH
collateral asset. -/
def sampleMarket : Market := marketWithUtilization (1 / 2) 2 1

/-- Collateral balances read from the chain for the sample user: 1.0 WETH
in 18-decimal raw units at every collateral address. -/
def sampleCb : ℕ → ℕ := fun _ => 1000000000000000000

/-- Position produced for the sample user: 1000 USDC borrowed against 1.0
WETH priced 2000 with liquidation factor 0.825, health factor 1.65. -/
def samplePos : UserPosition :=
  { address := 5
    base_balance := -1000
    collateral_balances := [(9, 1)]
    total_collateral_value := 2000
    total_borrow_value := 1000
    health_factor := 33 / 20 }

/-! ## Theorems -/

/-- C1. For every market snapshot and threshold T in (0,1) the utilization
check produces no finding when utilization_rate is at most T; above T it
produces exactly one HighUtilization finding whose severity is Critical iff
utilization exceeds T + 0.10, High iff it lies in (T + 0.05, T + 0.10], and
Medium otherwise; the reported severity, with absence ranked 0, is
monotonically non-decreasing in utilization_rate, and for a fixed snapshot
and threshold the severities reported at any two evaluation times agree. -/
theorem check_utilization_correct (T : ℚ) (hT : 0 < T ∧ T < 1) (m : Market)
    (ts : ℕ) :
    (m.utilization_rate ≤ T → check_utilization T m ts = []) ∧
    (T < m.utilization_rate →
      check_utilization T m ts =
        [{ category := .HighUtilization,
           severity := utilizationSeverity T m.utilization_rate,
           timestamp := ts }] ∧
      (utilizationSeverity T m.utilization_rate = .Critical ↔
        T + 1 / 10 < m.utilization_rate) ∧
      (utilizationSeverity T m.utilization_rate = .High ↔
        T + 1 / 20 < m.utilization_rate ∧ m.utilization_rate ≤ T + 1 / 10) ∧
      (utilizationSeverity T m.utilization_rate = .Medium ↔
        m.utilization_rate ≤ T + 1 / 20)) ∧
    (∀ ts₁ ts₂ : ℕ,
      (check_utilization T m ts₁).map RiskFinding.severity =
      (check_utilization T m ts₂).map RiskFinding.severity) ∧
    (∀ u₁ u₂ : ℚ, u₁ ≤ u₂ →
      severityRank (check_utilization T (m.withUtilization u₁) ts) ≤
      severityRank (check_utilization T (m.withUtilization u₂) ts)) := by
  clear hT
  refine ⟨?_, ?_, ?_, ?_⟩
  · intro h
    simp [check_utilization, not_lt.mpr h]
  · intro h
    refine ⟨by simp [check_utilization, h], ?_, ?_, ?_⟩
    · unfold utilizationSeverity
      split_ifs with h1 h2 <;> simp_all <;> linarith
    · unfold utilizationSeverity
      split_ifs with h1 h2 <;> simp_all
    · unfold utilizationSeverity
      split_ifs with h1 h2 <;> simp_all <;> linarith
  · intro ts₁ ts₂
    unfold check_utilization
    split_ifs <;> simp
  · intro u₁ u₂ h
    unfold check_utilization Market.withUtilization severityRank utilizationSeverity
    simp only
    split_ifs <;> simp [severityNat] <;> linarith

/-- Witness for C1: at threshold 0.85 and utilization 0.97 the check yields
exactly one Critical HighUtilization finding. -/
theorem check_utilization_correct_witness :
    check_utilization (17 / 20) utilMarket97 0 =
      [{ category := .HighUtilization, severity := .Critical,
         timestamp := 0 }] := by
  have h := (check_utilization_correct (17 / 20) (by norm_num) utilMarket97 0).2.1
    (by norm_num [utilMarket97, marketWithUtilization])
  rw [h.1]
  have hs : utilizationSeverity (17 / 20) utilMarket97.utilization_rate = .Critical := by
    norm_num [utilizationSeverity, utilMarket97, marketWithUtilization]
  rw [hs]

/-- C2. The empty finding list scores 0 and [High, Medium] scores 45 as
claimed, but the claimed formula min(100, sum of weights) fails once the
weight sum exceeds 255: calculate_risk_score sums into a u8, so six
Critical findings (weight sum 300) score 44 in a release build (the u8 sum
wraps to 44), while min(100, 300) = 100; a debug build aborts on the
overflow instead. -/
theorem calculate_risk_score_u8_overflow :
    calculate_risk_score [] = 0 ∧
    calculate_risk_score
      [{ category := .HighUtilization, severity := .High, timestamp := 0 },
       { category := .LiquidationCascade, severity := .Medium, timestamp := 0 }] = 45 ∧
    calculate_risk_score critFindings = 44 ∧
    min 100 ((critFindings.map fun f => severityWeight f.severity).sum) = 100 := by
  refine ⟨rfl, rfl, rfl, rfl⟩

/-- C3 counterexample. The claim that getMarkets consults a snapshot cache
fails: after a first call produced snapA (stored at time 0, still live at
time 1 in the spec-modelled store), a second call one second later returns
the freshly acquired snapB, not the live entry unchanged. -/
theorem get_markets_ignores_live_cache_entry :
    get_markets 7 chainA = some [snapA] ∧
    get_markets 7 chainB = some [snapB] ∧
    MarketSnapshotStore.get
      (MarketSnapshotStore.put MarketSnapshotStore.empty 7 snapA 0) 7 1 = some snapA ∧
    snapB ≠ snapA := by
  refine ⟨?_, ?_, rfl, ?_⟩
  · norm_num [get_markets, chainA, snapA, usdcBase, u256_to_f64, u64_pow10,
      Option.bind, secondsPerYear, List.mapM, List.mapM.loop]
  · norm_num [get_markets, chainA, chainB, snapA, snapB, usdcBase, u256_to_f64,
      u64_pow10, Option.bind, secondsPerYear, List.mapM, List.mapM.loop]
  · simp only [snapA, snapB, ne_eq, Market.mk.injEq]
    norm_num

/-- C3 amended. The spec-modelled MarketSnapshotStore does satisfy the
claimed TTL semantics — an entry put at time t is returned by get strictly
before t + 60 and treated as absent from t + 60 on — but get_markets in the
source maintains no cache: each call re-acquires the chain state and
returns a single-market sequence computed from it alone. -/
theorem market_snapshot_store_ttl (st : MarketSnapshotStore) (key : ℕ)
    (snapshot : Market) (t d : ℕ) :
    (d < snapshotTTL →
      MarketSnapshotStore.get (st.put key snapshot t) key (t + d) = some snapshot) ∧
    (snapshotTTL ≤ d →
      MarketSnapshotStore.get (st.put key snapshot t) key (t + d) = none) ∧
    (∀ cometAddress chain ms, get_markets cometAddress chain = some ms →
      ∃ m, ms = [m]) := by
  refine ⟨?_, ?_, ?_⟩
  · intro h
    simp [MarketSnapshotStore.get, MarketSnapshotStore.put,
      Nat.add_sub_cancel_left, h]
  · intro h
    simp [MarketSnapshotStore.get, MarketSnapshotStore.put,
      Nat.add_sub_cancel_left, not_lt.mpr h]
  · intro cometAddress chain ms h
    simp only [get_markets, Option.bind_eq_some] at h
    obtain ⟨p, hp, s, hs, b, hb, sr, hsr, br, hbr, ca, hca, hfin⟩ := h
    exact ⟨_, (Option.some_inj.mp hfin).symm⟩

/-- Witness for the C3 amended statement: a put at time 0 is still returned
at time 59 and is absent at time 61. -/
theorem market_snapshot_store_ttl_witness :
    MarketSnapshotStore.get
      (MarketSnapshotStore.put MarketSnapshotStore.empty 0 snapA 0) 0 (0 + 59) =
      some snapA ∧
    MarketSnapshotStore.get
      (MarketSnapshotStore.put MarketSnapshotStore.empty 0 snapA 0) 0 (0 + 61) =
      none :=
  ⟨(market_snapshot_store_ttl MarketSnapshotStore.empty 0 snapA 0 59).1
      (by norm_num [snapshotTTL]),
   (market_snapshot_store_ttl MarketSnapshotStore.empty 0 snapA 0 61).2.1
      (by norm_num [snapshotTTL])⟩

/-- C4. For buffer B at least 0: no finding when total_borrow_value is not
positive; otherwise a finding exists iff health_factor is below 1 + B, with
severity Critical iff health_factor is below 1, High iff it lies in
[1, 1 + B/2), and Medium iff it lies in [1 + B/2, 1 + B). -/
theorem check_user_liquidation_risk_correct (B : ℚ) (hB : 0 ≤ B)
    (u : UserPosition) (ts : ℕ) :
    (u.total_borrow_value ≤ 0 → check_user_liquidation_risk B u ts = none) ∧
    (0 < u.total_borrow_value →
      ((check_user_liquidation_risk B u ts).isSome ↔ u.health_factor < 1 + B) ∧
      (∀ f, check_user_liquidation_risk B u ts = some f →
        (f.severity = .Critical ↔ u.health_factor < 1) ∧
        (f.severity = .High ↔ 1 ≤ u.health_factor ∧ u.health_factor < 1 + B / 2) ∧
        (f.severity = .Medium ↔
          1 + B / 2 ≤ u.health_factor ∧ u.health_factor < 1 + B))) := by
  unfold check_user_liquidation_risk
  constructor
  · intro h; simp [h]
  · intro h
    rw [if_neg (not_le.mpr h)]
    constructor
    · split_ifs with h1 <;> simp [h1]
    · intro f hf
      split_ifs at hf with h1 h2 h3
      · cases Option.some_inj.mp hf
        exact ⟨iff_of_true rfl h2,
          iff_of_false (by simp) (fun hc => by linarith [hc.1]),
          iff_of_false (by simp) (fun hc => by linarith [hc.1])⟩
      · cases Option.some_inj.mp hf
        exact ⟨iff_of_false (by simp) h2,
          iff_of_true rfl ⟨le_of_not_lt h2, h3⟩,
          iff_of_false (by simp) (fun hc => by linarith [hc.1])⟩
      · cases Option.some_inj.mp hf
        exact ⟨iff_of_false (by simp) h2,
          iff_of_false (by simp) (fun hc => h3 hc.2),
          iff_of_true rfl ⟨le_of_not_lt h3, h1⟩⟩

/-- Witness for C4, the design notes' scenario: 1000 borrowed against
collateral worth 2000 weighted by liquidation factor 0.825 gives health
factor 1.65, which with buffer 0.05 produces no liquidation finding. -/
theorem check_user_liquidation_risk_witness :
    check_user_liquidation_risk (1 / 20) samplePos 0 = none := by
  have h := (check_user_liquidation_risk_correct (1 / 20) (by norm_num) samplePos 0).2
    (by norm_num [samplePos])
  cases hc : check_user_liquidation_risk (1 / 20) samplePos 0 with
  | none => rfl
  | some f =>
    have h1 := h.1.mp (by rw [hc]; rfl)
    norm_num [samplePos] at h1

/-- Below the u64 overflow bound the 10u64.pow factor is exact. -/
theorem u64_pow10_eq (d : ℕ) (hd : d ≤ 19) : u64_pow10 d = 10 ^ d := by
  unfold u64_pow10
  exact Nat.mod_eq_of_lt
    (lt_of_le_of_lt (Nat.pow_le_pow_right (by norm_num) hd) (by norm_num))

/-- Rational cast of the conversion factor below the overflow bound. -/
theorem u64_pow10_cast (d : ℕ) (hd : d ≤ 19) :
    ((u64_pow10 d : ℕ) : ℚ) = (10 : ℚ) ^ d := by
  rw [u64_pow10_eq d hd]
  push_cast
  ring

/-- For raw values within u128 and decimals within the u64 power range,
u256_to_f64 is the exact division by 10^decimals. -/
theorem u256_to_f64_of_lt (value d : ℕ) (hv : value < 2 ^ 128) (hd : d ≤ 19) :
    u256_to_f64 value d = some ((value : ℚ) / 10 ^ d) := by
  unfold u256_to_f64
  rw [if_pos (by omega), u64_pow10_cast d hd]

/-- Round-half-away-from-zero fixes the integers. -/
theorem roundHalfAway_natCast (n : ℕ) : roundHalfAway (n : ℚ) = n := by
  unfold roundHalfAway
  rw [if_pos (by positivity)]
  rw [show ((n : ℚ) + 1 / 2) = ((n : ℤ) : ℚ) + 1 / 2 by push_cast; ring]
  rw [Int.floor_int_add]
  norm_num

/-- Rounding a non-negative rational stays non-negative. -/
theorem roundHalfAway_nonneg (q : ℚ) (h : 0 ≤ q) : 0 ≤ roundHalfAway q := by
  unfold roundHalfAway
  rw [if_pos h]
  exact Int.floor_nonneg.mpr (by linarith)

/-- Rounding a negative rational stays non-positive. -/
theorem roundHalfAway_nonpos (q : ℚ) (h : q < 0) : roundHalfAway q ≤ 0 := by
  unfold roundHalfAway
  rw [if_neg (not_le.mpr h)]
  simp only [neg_nonpos]
  exact Int.floor_nonneg.mpr (by linarith)

/-- C5 counterexample. A strictly negative input does not fail: the
(.. as u128) cast saturates, so f64_to_u256 applied to -1.5 with 0 decimals
returns the integer 0; no DomainError exists anywhere in the conversion
path. -/
theorem f64_to_u256_negative_yields_zero :
    f64_to_u256 (-(3 / 2) : ℚ) 0 = 0 ∧ (-(3 / 2) : ℚ) < 0 := by
  constructor
  · norm_num [f64_to_u256, roundHalfAway, u64_pow10]
  · norm_num

/-- C5 amended. f64_to_u256 multiplies by 10^decimals and rounds
half-away-from-zero, producing a non-negative integer; but a strictly
negative input yields 0 through cast saturation instead of failing with a
DomainError. Stated for decimals up to 19, where the u64 power factor is
exact, and for results within the u128 range where the upper saturation is
inactive. -/
theorem f64_to_u256_rounds_and_saturates (v : ℚ) (d : ℕ) (hd : d ≤ 19) :
    (v < 0 → f64_to_u256 v d = 0) ∧
    (0 ≤ v → roundHalfAway (v * 10 ^ d) ≤ 2 ^ 128 - 1 →
      (f64_to_u256 v d : ℤ) = roundHalfAway (v * 10 ^ d)) := by
  constructor
  · intro hv
    unfold f64_to_u256
    rw [u64_pow10_cast d hd]
    have hq : v * (10 : ℚ) ^ d < 0 := mul_neg_of_neg_of_pos hv (by positivity)
    have hr : roundHalfAway (v * 10 ^ d) ≤ 0 := roundHalfAway_nonpos _ hq
    rw [min_eq_left (le_trans hr (by norm_num)), max_eq_left hr]
    rfl
  · intro hv hb
    unfold f64_to_u256
    rw [u64_pow10_cast d hd]
    have hq : 0 ≤ v * (10 : ℚ) ^ d := mul_nonneg hv (by positivity)
    have hr : 0 ≤ roundHalfAway (v * 10 ^ d) := roundHalfAway_nonneg _ hq
    rw [min_eq_left hb, max_eq_right hr]
    exact Int.toNat_of_nonneg hr

/-- Witness for the C5 amended statement: 1.5 at 1 decimal rounds to 15. -/
theorem f64_to_u256_rounds_witness :
    (f64_to_u256 (3 / 2) 1 : ℤ) = roundHalfAway ((3 / 2) * 10 ^ 1) ∧
    roundHalfAway ((3 / 2 : ℚ) * 10 ^ 1) = 15 := by
  have h15 : roundHalfAway ((3 / 2 : ℚ) * 10 ^ 1) = 15 := by
    norm_num [roundHalfAway]
  exact ⟨(f64_to_u256_rounds_and_saturates (3 / 2) 1 (by norm_num)).2
    (by norm_num) (by rw [h15]; norm_num), h15⟩

/-- C6 counterexample. The round-trip tolerance fails inside the claimed
domain: v = 0.5 has one fractional digit (at most 6) and d = 0 lies in
[0, 18], yet fromDecimal rounds 0.5 to 1, the round-trip returns 1.0, and
the relative error is 1, far beyond 1e-6. -/
theorem roundtrip_fails_at_half :
    u256_to_f64 (f64_to_u256 (1 / 2) 0) 0 = some 1 ∧
    ¬(|(1 : ℚ) - 1 / 2| ≤ 1 / 1000000 * |(1 / 2 : ℚ)|) := by
  constructor
  · norm_num [f64_to_u256, u256_to_f64, roundHalfAway, u64_pow10]
  · norm_num

/-- C6 amended. For decimals d in [0, 18] and non-negative values whose
fractional digits are all covered by d (v = n / 10^d for a natural n) with
raw value below 2^128, the round-trip through f64_to_u256 and u256_to_f64
is exact, hence in particular within the claimed 1e-6 relative
tolerance. -/
theorem roundtrip_exact (d n : ℕ) (hd : d ≤ 18) (hn : n < 2 ^ 128) :
    u256_to_f64 (f64_to_u256 ((n : ℚ) / 10 ^ d) d) d =
      some ((n : ℚ) / 10 ^ d) := by
  have hd' : d ≤ 19 := le_trans hd (by norm_num)
  have hmul : (n : ℚ) / 10 ^ d * ((u64_pow10 d : ℕ) : ℚ) = (n : ℚ) := by
    rw [u64_pow10_cast d hd']
    field_simp
  have hround : roundHalfAway ((n : ℚ) / 10 ^ d * ((u64_pow10 d : ℕ) : ℚ)) = n := by
    rw [hmul, roundHalfAway_natCast]
  have hcastle : ((n : ℤ)) ≤ 2 ^ 128 - 1 := by
    have : (n : ℤ) < 2 ^ 128 := by exact_mod_cast hn
    linarith
  unfold f64_to_u256
  rw [hround, min_eq_left hcastle, max_eq_right (Int.natCast_nonneg n),
    Int.toNat_natCast]
  exact u256_to_f64_of_lt n d hn hd'

/-- Witness for the C6 amended statement: 123.456 at 6 decimals (the
crate's own round-trip test value) survives the round-trip exactly. -/
theorem roundtrip_exact_witness :
    u256_to_f64 (f64_to_u256 (((123456000 : ℕ) : ℚ) / 10 ^ 6) 6) 6 =
      some (((123456000 : ℕ) : ℚ) / 10 ^ 6) :=
  roundtrip_exact 6 123456000 (by norm_num) (by norm_num)

/-- C10 counterexample. u256_to_f64 is not total on 256-bit values: at
2^128, a value inside the claimed domain (any width up to 256 bits, with
decimals 6 well inside any declared range), value.as_u128() aborts, so the
embedding returns none rather than the divided value. -/
theorem u256_to_f64_aborts_above_u128 :
    u256_to_f64 (2 ^ 128) 6 = none ∧ (2 : ℕ) ^ 128 ≤ 2 ^ 256 - 1 := by
  constructor
  · rfl
  · norm_num

/-- C10 amended. u256_to_f64 returns the raw value divided by 10^decimals
without aborting only on the restricted domain of raw values below 2^128
and decimals at most 19 (beyond which the u64 power factor itself
overflows). -/
theorem u256_to_f64_total_below_u128 (value d : ℕ) (hv : value < 2 ^ 128)
    (hd : d ≤ 19) : u256_to_f64 value d = some ((value : ℚ) / 10 ^ d) :=
  u256_to_f64_of_lt value d hv hd

/-- Witness for the C10 amended statement: the crate's own conversion test,
1,000,000,000 raw at 6 decimals, gives 1000. -/
theorem u256_to_f64_total_witness :
    u256_to_f64 1000000000 6 = some (((1000000000 : ℕ) : ℚ) / 10 ^ 6) :=
  u256_to_f64_total_below_u128 1000000000 6 (by norm_num) (by norm_num)

/-- C7 counterexample. At total_supply 1,000,000,000 and total_borrow
900,000,000 (utilization exactly 0.90) against threshold 0.85 the single
finding's severity is Medium, not High as the claim asserts: 0.90 exceeds
neither threshold + 0.05 = 0.90 nor threshold + 0.10 under the strict
comparison. -/
theorem utilization_ninety_not_high :
    (check_utilization (17 / 20) utilMarket90 0).map RiskFinding.severity =
      [RiskSeverity.Medium] ∧
    RiskSeverity.Medium ≠ RiskSeverity.High := by
  constructor
  · norm_num [check_utilization, utilMarket90, marketWithUtilization,
      utilizationSeverity]
  · simp

/-- C7 amended. The scenario yields exactly one HighUtilization finding
whose severity is Medium, resolving the boundary exactly as the claim's own
boundary analysis demands: at utilization equal to threshold + 0.05 the
strict comparison fails and the severity is Medium. -/
theorem utilization_ninety_medium :
    utilMarket90.utilization_rate =
      utilMarket90.total_borrow / utilMarket90.total_supply ∧
    check_utilization (17 / 20) utilMarket90 0 =
      [{ category := .HighUtilization, severity := .Medium, timestamp := 0 }] ∧
    utilizationSeverity (17 / 20) (17 / 20 + 1 / 20) = .Medium := by
  refine ⟨by norm_num [utilMarket90, marketWithUtilization], ?_, ?_⟩
  · norm_num [check_utilization, utilMarket90, marketWithUtilization,
      utilizationSeverity]
  · norm_num [utilizationSeverity]

/-- C8 counterexample. The simulation does not reproduce the utilization
check's rule semantics: at utilization 0.90 and threshold 0.85 the
simulation (which always adds the fixed delta 0.10) reports severity
Medium, while the utilization check evaluated at utilization 0.90 + 0.10
reports Critical. -/
theorem simulate_not_rule_semantics :
    simulate_market_conditions (17 / 20) utilMarket90 0 =
      [{ category := .HighUtilization, severity := .Medium, timestamp := 0 }] ∧
    check_utilization (17 / 20)
        (utilMarket90.withUtilization (utilMarket90.utilization_rate + 1 / 10)) 0 =
      [{ category := .HighUtilization, severity := .Critical, timestamp := 0 }] ∧
    RiskSeverity.Medium ≠ RiskSeverity.Critical := by
  refine ⟨?_, ?_, by simp⟩
  · norm_num [simulate_market_conditions, utilMarket90, marketWithUtilization]
  · norm_num [check_utilization, Market.withUtilization, utilMarket90,
      marketWithUtilization, utilizationSeverity]

/-- C8 amended. The simulation uses the fixed delta 0.10 (no caller-supplied
delta exists) and agrees with the utilization check at utilization + 0.10
only on whether any finding is produced; every finding it returns is a
HighUtilization finding with severity hard-coded to Medium. The snapshot is
taken by reference and never mutated, which the pure embedding reflects. -/
theorem simulate_fixed_delta (T : ℚ) (m : Market) (ts : ℕ) :
    (simulate_market_conditions T m ts = [] ↔
      check_utilization T (m.withUtilization (m.utilization_rate + 1 / 10)) ts = []) ∧
    (∀ f ∈ simulate_market_conditions T m ts,
      f.category = .HighUtilization ∧ f.severity = .Medium) := by
  have hsim : simulate_market_conditions T m ts =
      if T < m.utilization_rate + 1 / 10 then
        [{ category := .HighUtilization, severity := .Medium, timestamp := ts }]
      else [] := rfl
  constructor
  · rw [hsim]
    unfold check_utilization Market.withUtilization
    split_ifs <;> simp_all
  · rw [hsim]
    intro f hf
    split_ifs at hf with hT
    · simp only [List.mem_singleton] at hf
      simp [hf]
    · simp at hf

/-- Witness for the C8 amended statement: at utilization 0.5 even the
simulated utilization 0.6 stays below the 0.85 threshold, and the
simulation accordingly returns no findings. -/
theorem simulate_fixed_delta_witness :
    simulate_market_conditions (17 / 20) snapA 0 = [] :=
  (simulate_fixed_delta (17 / 20) snapA 0).1.mpr
    (by norm_num [check_utilization, Market.withUtilization, snapA])

/-- Looking an address up in the collateral map skips entries with other
keys. -/
theorem lookupAsset_cons_ne (a : ℕ) (asset : Asset) (rest : List (ℕ × Asset))
    (addr : ℕ) (h : addr ≠ a) :
    lookupAsset addr ((a, asset) :: rest) = lookupAsset addr rest := by
  simp [lookupAsset, h]

/-- The health-factor fold is unaffected by a leading map entry whose key
appears in none of the folded balances. -/
theorem adjustedCollateralValue_cons_irrelevant (a : ℕ) (asset : Asset)
    (rest : List (ℕ × Asset)) (lst : List (ℕ × ℚ))
    (h : ∀ p ∈ lst, p.1 ≠ a) :
    adjustedCollateralValue ((a, asset) :: rest) lst =
      adjustedCollateralValue rest lst := by
  induction lst with
  | nil => rfl
  | cons hd tl ih =>
    obtain ⟨addr, amt⟩ := hd
    have h1 : addr ≠ a := h (addr, amt) (by simp)
    simp only [adjustedCollateralValue]
    rw [lookupAsset_cons_ne a asset rest addr h1,
      ih (fun p hp => h p (List.mem_cons_of_mem _ hp))]

/-- Every recorded collateral balance is keyed by an address of the asset
list it was collected from. -/
theorem collectCollaterals_keys (cb : ℕ → ℕ) (assets : List (ℕ × Asset))
    (lst : List (ℕ × ℚ)) (tv : ℚ)
    (h : collectCollaterals cb assets = some (lst, tv)) :
    ∀ p ∈ lst, p.1 ∈ assets.map Prod.fst := by
  induction assets generalizing lst tv with
  | nil =>
    simp only [collectCollaterals, Option.some_inj] at h
    injection h with h1 h2
    rw [← h1]
    simp
  | cons hd tl ih =>
    obtain ⟨a, asset⟩ := hd
    simp only [collectCollaterals, Option.bind_eq_some] at h
    obtain ⟨bal, hbal, ⟨lst', tv'⟩, hrec, hfin⟩ := h
    split_ifs at hfin with hpos
    · injection hfin with hpair
      injection hpair with h1 h2
      subst h1
      intro p hp
      rcases List.mem_cons.mp hp with hpa | hmem
      · rw [hpa]
        simp
      · simp only [List.map_cons]
        exact List.mem_cons_of_mem _ (ih lst' tv' hrec p hmem)
    · injection hfin with hpair
      injection hpair with h1 h2
      subst h1
      intro p hp
      simp only [List.map_cons]
      exact List.mem_cons_of_mem _ (ih lst' tv' hrec p hp)

/-- A successful conversion determines the decimal value exactly. -/
theorem u256_to_f64_success (value d : ℕ) (q : ℚ) (hd : d ≤ 19)
    (h : u256_to_f64 value d = some q) : q = (value : ℚ) / 10 ^ d := by
  unfold u256_to_f64 at h
  split_ifs at h with hle
  · rw [← Option.some_inj.mp h, u64_pow10_cast d hd]

/-- The lookup-based health-factor fold over the collected balances equals
the direct sum over the market's collateral entries restricted to strictly
positive balances, provided the collateral addresses are distinct (a
HashMap guarantee in the source). -/
theorem adjusted_eq_direct_sum (cb : ℕ → ℕ) (assets : List (ℕ × Asset))
    (hnd : (assets.map Prod.fst).Nodup)
    (hdec : ∀ p ∈ assets, p.2.decimals ≤ 19)
    (lst : List (ℕ × ℚ)) (tv : ℚ)
    (h : collectCollaterals cb assets = some (lst, tv)) :
    adjustedCollateralValue assets lst =
      some ((assets.map fun p =>
        if 0 < (cb p.1 : ℚ) / 10 ^ p.2.decimals then
          (cb p.1 : ℚ) / 10 ^ p.2.decimals * p.2.price * p.2.liquidation_factor
        else 0).sum) := by
  induction assets generalizing lst tv with
  | nil =>
    simp only [collectCollaterals, Option.some_inj] at h
    injection h with h1 h2
    rw [← h1]
    simp [adjustedCollateralValue]
  | cons hd tl ih =>
    obtain ⟨a, asset⟩ := hd
    simp only [List.map_cons, List.nodup_cons] at hnd
    obtain ⟨hna, hnd'⟩ := hnd
    simp only [collectCollaterals, Option.bind_eq_some] at h
    obtain ⟨bal, hbal, ⟨lst', tv'⟩, hrec, hfin⟩ := h
    have hdec_a : asset.decimals ≤ 19 := hdec (a, asset) (by simp)
    have hbal' : bal = (cb a : ℚ) / 10 ^ asset.decimals :=
      u256_to_f64_success _ _ _ hdec_a hbal
    have ihres := ih hnd' (fun p hp => hdec p (List.mem_cons_of_mem _ hp))
      lst' tv' hrec
    have hirr : adjustedCollateralValue ((a, asset) :: tl) lst' =
        adjustedCollateralValue tl lst' :=
      adjustedCollateralValue_cons_irrelevant a asset tl lst' (fun p hp heq =>
        hna (heq ▸ collectCollaterals_keys cb tl lst' tv' hrec p hp))
    split_ifs at hfin with hpos
    · injection hfin with hpair
      injection hpair with h1 h2
      subst h1
      simp only [adjustedCollateralValue]
      rw [show lookupAsset a ((a, asset) :: tl) = some asset from by
        simp [lookupAsset]]
      simp only [Option.some_bind]
      rw [hirr, ihres]
      simp only [Option.some_bind, Option.some_inj, List.map_cons, List.sum_cons]
      rw [← hbal', if_pos (hbal' ▸ hpos)]
      ring_nf
      rw [hbal']
      ring
    · injection hfin with hpair
      injection hpair with h1 h2
      subst h1
      rw [hirr, ihres]
      simp only [Option.some_inj, List.map_cons, List.sum_cons]
      rw [if_neg (fun hc => hpos (hbal' ▸ hc))]
      rw [zero_add]

/-- C9. Whenever get_user_position succeeds, the returned health_factor is
the sentinel 100 exactly when total_borrow_value is 0, and otherwise the
sum over the included collateral entries of balance times price times
liquidation factor divided by total_borrow_value. The address-distinctness
hypothesis reflects the HashMap keying of the source map; the decimals
bound keeps the u64 power factor of each conversion exact. -/
theorem get_user_position_health (market : Market) (baseBal borrowBal : ℕ)
    (cb : ℕ → ℕ) (ua : ℕ) (pos : UserPosition)
    (hnd : (market.collateral_assets.map Prod.fst).Nodup)
    (hdec : ∀ p ∈ market.collateral_assets, p.2.decimals ≤ 19)
    (h : get_user_position market baseBal borrowBal cb ua = some pos) :
    (pos.total_borrow_value = 0 → pos.health_factor = 100) ∧
    (0 < pos.total_borrow_value →
      pos.health_factor = healthNumerator market cb / pos.total_borrow_value) := by
  simp only [get_user_position, Option.bind_eq_some] at h
  obtain ⟨bb, hbb, ⟨lst, tv⟩, hcol, hfv, hhf, hpos⟩ := h
  have hpe := Option.some_inj.mp hpos
  subst hpe
  constructor
  · intro h0
    dsimp only at h0 ⊢
    rw [if_neg (by rw [h0]; exact lt_irrefl 0)] at hhf
    exact (Option.some_inj.mp hhf).symm
  · intro hpos0
    dsimp only at hpos0 ⊢
    rw [if_pos hpos0] at hhf
    rw [adjusted_eq_direct_sum cb market.collateral_assets hnd hdec lst tv hcol] at hhf
    simp only [Option.map_some'] at hhf
    rw [← Option.some_inj.mp hhf]
    rfl

/-- Witness for C9, the design notes' scenario: 1000 borrowed (raw 10^9 at
6 decimals) against 1.0 WETH (raw 10^18 at 18 decimals) priced 2000 with
liquidation factor 0.825 gives total_borrow_value 1000 and health factor
1650 / 1000 = 1.65. -/
theorem get_user_position_health_witness :
    samplePos.health_factor =
      healthNumerator sampleMarket sampleCb / samplePos.total_borrow_value :=
  (get_user_position_health sampleMarket 0 1000000000 sampleCb 5 samplePos
      (by simp [sampleMarket, marketWithUtilization])
      (by norm_num [sampleMarket, marketWithUtilization, wethAsset])
      (by norm_num [get_user_position, sampleMarket, marketWithUtilization,
        samplePos, sampleCb, usdcBase, wethAsset, u256_to_f64, u64_pow10,
        collectCollaterals, adjustedCollateralValue, lookupAsset,
        Option.bind])).2
    (by norm_num [samplePos])

end CometGuard
